import Mathlib

/-!
Shallow embedding of the TransBench translation-benchmark runner
(`src/config.py`, `src/parser.py`, `src/translator.py`, `src/main.py`,
`src/writer.py`) together with proofs of the specification claims about it.

Modelling conventions:
* Python strings are Lean `String`s; Python `int` is `Int` (`Nat` where the
  source value is a count that is provably non-negative).
* Fallible Python code (raising exceptions) is modelled with `Except`.
* The remote LLM call `self._get_client().invoke(messages)` performed by
  `Translator.translate` is abstracted as an oracle
  `Nat → Except E String` giving, for each attempt number, either the
  response content or the exception raised by that attempt.  The lazy
  thread-local client of `Translator._get_client` is constructed only
  inside such an invocation, so an execution with zero invocations
  constructs no client.
* The thread pool of `translate_task` is modelled by the list `order` of
  item indexes in the order in which `as_completed` yields their futures:
  any permutation of the submitted indexes is a possible completion order.
-/

deriving instance DecidableEq for Except

namespace TransBench

/-- Structure ExamItem from `src/parser.py`: one captured work line. -/
structure ExamItem where
  source : String
  line_no : Nat
deriving DecidableEq, Repr

instance : Inhabited ExamItem := ⟨⟨"", 0⟩⟩

/-- A Python exception value as seen by the dispatcher: either the
`ValueError` built by `Translator.translate` for an unsupported task, or an
adapter exception of abstract type `E` (network/timeout/... errors). -/
inductive PyError (E : Type) where
  | valueError (msg : String)
  | exc (e : E)
deriving DecidableEq, Repr

/-- Structure TranslationResult from `src/translator.py`. -/
structure TranslationResult (E : Type) where
  text : String
  error : Option (PyError E) := none
deriving DecidableEq, Repr

/-- Structure AppConfig from `src/config.py`.  `temperature` and `timeout` are kept
as the raw environment text: the source parses them with `float(...)`,
whose numeric value no claim depends on. -/
structure AppConfig where
  api_key : String
  base_url : Option String
  model_name : String
  temperature : String
  max_tokens : Option Int
  timeout : String
  retries : Int
  workers : Int
  continue_on_error : Bool
deriving DecidableEq, Repr

/-- Class Translator from `src/translator.py` (the thread-local client cache is
not part of the observable state; see the module docstring). -/
structure Translator where
  config : AppConfig
deriving DecidableEq, Repr

/-- The dict SYSTEM_PROMPTS from `src/translator.py`, as a partial map. -/
def SYSTEM_PROMPTS (task : String) : Option String :=
  if task = "zh_en" then
    some ("You are a professional translator. Translate the user\x27s Chinese text into natural, accurate English. " ++
      "Return translation only, without notes.")
  else if task = "en_zh" then
    some ("You are a professional translator. Translate the user\x27s English text into natural, accurate Simplified Chinese. " ++
      "Return translation only, without notes.")
  else none

/-- Characters stripped by the Python `str.strip()` calls in
`src/parser.py` and `src/translator.py` (restricted to ASCII whitespace;
the markers and the claims only involve ASCII). -/
def isPySpace (c : Char) : Bool :=
  c = ' ' || c = '\t' || c = '\n' || c = '\r' || c = '\x0b' || c = '\x0c'

/-- Python `str.strip()`. -/
def pyStrip (s : String) : String :=
  ⟨((s.data.dropWhile isPySpace).reverse.dropWhile isPySpace).reverse⟩

/-- Trace of one `Translator.translate` execution: the returned
`TranslationResult`, how many times `self._get_client().invoke(messages)`
ran (`calls`), and the attempt numbers after which `time.sleep(0.5 * attempt)`
ran (`sleeps`). -/
structure TranslateTrace (E : Type) where
  result : TranslationResult E
  calls : Nat
  sleeps : List Nat
deriving DecidableEq, Repr

/-- The `for attempt in range(1, self.config.retries + 1)` loop of
`Translator.translate`.  `fuel` is the number of attempts still to run,
`attempt` the 1-based number of the next attempt, `lastError` the Python
`last_error` variable.  A sleep happens after a failed attempt only when
further attempts remain (`attempt < retries`, i.e. `fuel > 0` after the
current attempt). -/
def attemptLoop (oracle : Nat → Except E String) :
    Nat → Nat → Option E → TranslateTrace E
  | _, 0, lastError => ⟨⟨"", lastError.map PyError.exc⟩, 0, []⟩
  | attempt, fuel + 1, _ =>
    match oracle attempt with
    | .ok content => ⟨⟨pyStrip content, none⟩, 1, []⟩
    | .error e =>
      let rest := attemptLoop oracle (attempt + 1) fuel (some e)
      ⟨rest.result, rest.calls + 1,
        (if fuel > 0 then [attempt] else []) ++ rest.sleeps⟩

/-- Method Translator.translate from `src/translator.py`.  The `source` text
only enters the remote messages, which the oracle abstracts.  The Python
loop `range(1, retries + 1)` runs `max 0 retries = retries.toNat` times. -/
def Translator.translate (t : Translator) (oracle : Nat → Except E String)
    (task source : String) : TranslateTrace E :=
  if (SYSTEM_PROMPTS task).isNone then
    ⟨⟨"", some (PyError.valueError ("Unsupported task: " ++ task))⟩, 0, []⟩
  else
    attemptLoop oracle 1 t.config.retries.toNat none

/-- Python `stripped.startswith("#")`. -/
def startsWithHash (s : String) : Bool :=
  match s.data with
  | '#' :: _ => true
  | _ => false

/-- Python `stripped[1:-1]` (character slicing), used to read the task name
out of an opening task marker. -/
def markerName (s : String) : String :=
  ⟨(s.data.drop 1).dropLast⟩

/-- Structure ParseResult from `src/parser.py`: the two per-task item
lists (`tasks["zh_en"]` and `tasks["en_zh"]`). -/
structure ParseResult where
  zh_en : List ExamItem
  en_zh : List ExamItem
deriving DecidableEq, Repr

/-- The loop state of `parse_exam` in `src/parser.py`. -/
structure PState where
  inside_exam : Bool
  seen_exam_start : Bool
  seen_exam_end : Bool
  current_task : Option String
  zh_en : List ExamItem
  en_zh : List ExamItem
deriving DecidableEq, Repr

/-- Append a captured item to `tasks[current_task]`.  `current_task` is
only ever one of the two opening task markers. -/
def PState.addItem (st : PState) (task : String) (it : ExamItem) : PState :=
  if task = "zh_en" then { st with zh_en := st.zh_en ++ [it] }
  else { st with en_zh := st.en_zh ++ [it] }

/-- Initial state of the `parse_exam` loop. -/
def initPState : PState := ⟨false, false, false, none, [], []⟩

/-- The `for line_no, raw in enumerate(f, start=1)` loop of `parse_exam`;
the close-exam marker breaks out of the loop (remaining lines unread). -/
def parseLines : List (Nat × String) → PState → PState
  | [], st => st
  | (line_no, raw) :: rest, st =>
    let stripped := pyStrip raw
    if stripped = "<exam>" then
      parseLines rest
        { st with inside_exam := true, seen_exam_start := true, current_task := none }
    else if stripped = "</exam>" then
      { st with inside_exam := false, seen_exam_end := true, current_task := none }
    else if !st.inside_exam then
      parseLines rest st
    else if stripped = "<zh_en>" || stripped = "<en_zh>" then
      parseLines rest { st with current_task := some (markerName stripped) }
    else if stripped = "</zh_en>" || stripped = "</en_zh>" then
      parseLines rest { st with current_task := none }
    else
      match st.current_task with
      | none => parseLines rest st
      | some t =>
        if stripped = "" || startsWithHash stripped then parseLines rest st
        else parseLines rest (st.addItem t ⟨stripped, line_no⟩)

/-- Function parse_exam from `src/parser.py`, over the list of lines of the
input file (the file-existence check concerns the file system and is not
modelled).  Errors are the `ValueError` messages raised by the source; the
spec calls both of them MalformedInput. -/
def parse_exam (lines : List String) : Except String ParseResult :=
  let st := parseLines (List.enumFrom 1 lines) initPState
  if st.inside_exam || (st.seen_exam_start && !st.seen_exam_end) then
    .error "Malformed exam.txt: missing </exam>"
  else if !st.seen_exam_start then
    .error "Malformed exam.txt: missing <exam> container"
  else
    .ok ⟨st.zh_en, st.en_zh⟩

/-- The `for future in as_completed(futures)` loop body of `translate_task`
in `src/main.py`.  `pending` is the list of item indexes whose futures have
not yet been consumed, in completion order; `rows`, `s`, `f` are the Python
`rows`, `success_count`, `fail_count`.  On a failure with
`continue_on_error` false the source cancels the pending futures and
re-raises `result.error`; no row list or counts are returned. -/
def dispatchLoop (items : List ExamItem) (results : Nat → TranslationResult E)
    (continue_on_error : Bool) :
    List Nat → List (ExamItem × String) → Nat → Nat →
      Except (PyError E) (List (ExamItem × String) × Nat × Nat)
  | [], rows, s, f => .ok (rows, s, f)
  | idx :: pending, rows, s, f =>
    let item := items.getD idx default
    match (results idx).error with
    | some e =>
      if continue_on_error then
        dispatchLoop items results continue_on_error pending
          (rows.set idx (item, "")) s (f + 1)
      else
        .error e
    | none =>
      dispatchLoop items results continue_on_error pending
        (rows.set idx (item, (results idx).text)) (s + 1) f

/-- Function translate_task from `src/main.py`.  `results idx` is the
`TranslationResult` of the future submitted for `items[idx]` (i.e. of
`translator.translate(task, items[idx].source)`), and `order` is the
sequence of indexes in the order `as_completed` delivers them; the `task`,
`translator` and `workers` arguments of the source enter the model only
through `results` and `order`. -/
def translate_task (items : List ExamItem) (results : Nat → TranslationResult E)
    (continue_on_error : Bool) (order : List Nat) :
    Except (PyError E) (List (ExamItem × String) × Nat × Nat) :=
  if items.isEmpty then .ok ([], 0, 0)
  else dispatchLoop items results continue_on_error order
    (items.map (fun item => (item, ""))) 0 0

/-- The row value `translate_task` ends up storing in slot `i`: the item at
`i` paired with the translated text on success and with the empty string on
failure. -/
def expectedRow (items : List ExamItem) (results : Nat → TranslationResult E)
    (i : Nat) : ExamItem × String :=
  (items.getD i default,
    if ((results i).error).isSome then "" else (results i).text)

/-- Digit-string value, helper for the model of Python `int(...)`. -/
def digitsNat (ds : List Char) : Option Nat :=
  if ds.isEmpty then none
  else
    ds.foldl
      (fun acc c =>
        acc.bind fun n => if c.isDigit then some (n * 10 + (c.toNat - 48)) else none)
      (some 0)

/-- Model of Python `int(string)`: an optional sign followed by decimal
digits (the extra tolerance of the real parser for surrounding whitespace
and underscores is irrelevant to the claims); `none` is the raised
`ValueError`. -/
def pyInt (s : String) : Option Int :=
  match s.data with
  | '-' :: ds => (digitsNat ds).map (fun n => -(n : Int))
  | '+' :: ds => (digitsNat ds).map (fun n => (n : Int))
  | ds => (digitsNat ds).map (fun n => (n : Int))

/-- Python truthiness of `os.getenv` results as used by the `a or b` and
`if not x` idioms in `load_config` (`None` and the empty string are falsy). -/
def envTruthy (v : Option String) : Bool :=
  v.getD "" ≠ ""

/-- Python `os.getenv(a) or os.getenv(b)`. -/
def pyOr (a b : Option String) : Option String :=
  if envTruthy a then a else b

/-- Function load_config from `src/config.py`.  The environment (after
`load_dotenv`) is a map `env`; `continue_on_error` and `workers` are the
keyword arguments.  `int(...)` is modelled by `pyInt`;
`float(...)` values are kept as raw text. -/
def load_config (env : String → Option String)
    (continue_on_error : Option Bool) (workers : Option Int) :
    Except String AppConfig :=
  let api_key := pyOr (env "OPENAI_API_KEY") (env "LLM_API_KEY")
  if !envTruthy api_key then
    .error "Missing API key. Set OPENAI_API_KEY or LLM_API_KEY in .env"
  else
  let model_name := env "MODEL_NAME"
  if !envTruthy model_name then
    .error "Missing MODEL_NAME in .env"
  else
  let base_url := pyOr (env "OPENAI_BASE_URL") (env "LLM_BASE_URL")
  let temperature := (env "TEMPERATURE").getD "0"
  let max_tokens_raw := pyStrip ((env "MAX_TOKENS").getD "")
  match (if max_tokens_raw = "" then some none
         else (pyInt max_tokens_raw).map some) with
  | none => .error "ValueError: invalid literal for int: MAX_TOKENS"
  | some max_tokens =>
  let timeout := (env "TIMEOUT").getD "30"
  match pyInt ((env "RETRIES").getD "3") with
  | none => .error "ValueError: invalid literal for int: RETRIES"
  | some retries =>
  match (match workers with
         | some w => some w
         | none => pyInt ((env "WORKERS").getD "4")) with
  | none => .error "ValueError: invalid literal for int: WORKERS"
  | some resolved_workers =>
  if resolved_workers ≤ 0 then
    .error "WORKERS must be a positive integer"
  else
  let resolved_continue :=
    match continue_on_error with
    | some b => b
    | none =>
      ((env "CONTINUE_ON_ERROR").getD "true").toLower ∈ ["1", "true", "yes", "y"]
  .ok ⟨api_key.getD "", base_url, model_name.getD "", temperature, max_tokens,
    timeout, retries, resolved_workers, resolved_continue⟩

/-- A minimal environment supplying the two required variables plus a
RETRIES text, used to exhibit that `load_config` accepts any integer retry
count. -/
def minimalEnv (retriesStr : String) : String → Option String := fun k =>
  if k = "OPENAI_API_KEY" then some "test-key"
  else if k = "MODEL_NAME" then some "test-model"
  else if k = "RETRIES" then some retriesStr
  else none

/-- `TASK_SEED_OFFSETS` from `src/main.py` (a `KeyError` for other keys is
the `none` case). -/
def TASK_SEED_OFFSETS (task : String) : Option Int :=
  if task = "zh_en" then some 11
  else if task = "en_zh" then some 29
  else none

/-- Modelled from the behavioural contract of the Python standard library
call `random.Random(seed).sample(range(n), k)` used by `sample_items` in
`src/main.py` (the library routine itself is not repository code): it is a
deterministic function of `(seed, n, k)`; for `0 ≤ k ≤ n` it returns `k`
distinct members of `range(n)`; for negative `k` (or `k > n`) it raises
`ValueError("Sample larger than population or is negative")`.  The model
returns a seed-dependent run of `k` consecutive indexes; the uniform
distribution of the real sampler is irrelevant to every claim, which
depend only on determinism, distinctness, bounds and the error case. -/
def random_sample (seed : Int) (n : Nat) (k : Int) : Except String (List Nat) :=
  if k < 0 ∨ n < k then
    .error "ValueError: Sample larger than population or is negative"
  else
    .ok (List.range'
      (((1103515245 * seed + 12345) % 2147483648).toNat % (n - k.toNat + 1))
      k.toNat)

/-- Ordered insertion, helper for the model of Python `sorted(...)`. -/
def insertLe (a : Nat) : List Nat → List Nat
  | [] => [a]
  | b :: l => if a ≤ b then a :: b :: l else b :: insertLe a l

/-- Model of Python `sorted(...)` on integer lists: insertion sort by `≤`
(Python sorts are stable, but the sampled indexes are distinct, so any
`≤`-sort agrees). -/
def pySorted (l : List Nat) : List Nat := l.foldr insertLe []

/-- Function sample_items from `src/main.py`. -/
def sample_items (task : String) (items : List ExamItem) (limit : Int)
    (random_seed : Int) : Except String (List ExamItem) :=
  if limit = -1 ∨ (items.length : Int) ≤ limit then .ok items
  else if limit = 0 then .ok []
  else
    match TASK_SEED_OFFSETS task with
    | none => .error "KeyError: task not in TASK_SEED_OFFSETS"
    | some offset =>
      match random_sample (random_seed + offset) items.length limit with
      | .error e => .error e
      | .ok sample =>
        let sampled_indexes := pySorted sample
        .ok (sampled_indexes.map (fun idx => items.getD idx default))

/-- The keyword parameters accepted by `load_config` in `src/config.py`. -/
def load_config_params : List String := ["continue_on_error", "workers", "env_file"]

/-- The keyword arguments `run` in `src/main.py` passes to `load_config`. -/
def run_load_config_kwargs : List String :=
  ["continue_on_error", "workers", "zh_en_limit", "en_zh_limit", "random_seed"]

/-- Python call binding: a call with keyword arguments succeeds only when
every keyword names a declared parameter; otherwise it raises `TypeError`
before the callee body runs. -/
def kwargsAccepted (params kwargs : List String) : Bool :=
  kwargs.all (fun k => params.contains k)

/-- The outcome of `run()` in `src/main.py`: its first configuration step
is the `load_config(...)` call, so when that call does not bind, `run`
raises `TypeError` no matter what the rest of the function (`rest`) would
have produced. -/
def run_outcome (rest : Except String Nat) : Except String Nat :=
  if kwargsAccepted load_config_params run_load_config_kwargs then rest
  else .error "TypeError: load_config got an unexpected keyword argument zh_en_limit"

/-- Function main from `src/main.py`: `SystemExit(run())` on a normal
return (exit status = the returned value, 0), and `SystemExit(1)` after
logging when `run` raises any `Exception`. -/
def main_exit (runOutcome : Except String Nat) : Nat :=
  match runOutcome with
  | .ok n => n
  | .error _ => 1

/-- Concrete data for the spec scenario of continue-mode failure handling:
three work items. -/
def scenarioItems : List ExamItem := [⟨"s1", 1⟩, ⟨"s2", 2⟩, ⟨"s3", 3⟩]

/-- A translator configured with retry_limit 2 for the spec scenario. -/
def scenarioTranslator : Translator := ⟨⟨"k", none, "m", "0", none, "30", 2, 4, true⟩⟩

/-- Per-item outcomes for the spec scenario: item 2 (index 1) fails on
every attempt, the others succeed. -/
def scenarioResults : Nat → TranslationResult String := fun i =>
  (scenarioTranslator.translate
    (fun _ => if i = 1 then Except.error "boom" else Except.ok "good")
    "zh_en" ((scenarioItems.getD i default).source)).result

/-! ## Helper lemmas -/

lemma getD_set_ne {α : Type} (l : List α) (i j : Nat) (v : α) (d : α)
    (h : j ≠ i) : (l.set j v).getD i d = l.getD i d := by
  simp [List.getD_eq_getElem?_getD, List.getElem?_set_ne h]

lemma getD_set_self {α : Type} (l : List α) (j : Nat) (v : α) (d : α)
    (h : j < l.length) : (l.set j v).getD j d = v := by
  simp [List.getD_eq_getElem?_getD, List.getElem?_set_self h]

lemma getD_map_fst (items : List ExamItem) (i : Nat) (h : i < items.length) :
    ((items.map (fun item => (item, ""))).getD i default).1 = items.getD i default := by
  simp [List.getD_eq_getElem?_getD, List.getElem?_map, List.getElem?_eq_getElem h,
    List.getD_eq_getElem _ _ h]

/-- With an adapter that fails on every attempt, the retry loop performs
exactly one remote call per unit of fuel. -/
lemma attemptLoop_calls_of_allFail {E : Type} (oracle : Nat → Except E String)
    (errF : Nat → E) (h : ∀ n, oracle n = .error (errF n)) :
    ∀ (fuel attempt : Nat) (lastE : Option E),
      (attemptLoop oracle attempt fuel lastE).calls = fuel := by
  intro fuel
  induction fuel with
  | zero => intro attempt lastE; rfl
  | succ n ih =>
    intro attempt lastE
    simp only [attemptLoop, h attempt]
    simpa using ih (attempt + 1) (some (errF attempt))

/-- One failing step of the retry loop leaves the eventual result that of
the remaining attempts. -/
lemma attemptLoop_succ_result {E : Type} (oracle : Nat → Except E String)
    (attempt fuel : Nat) (lastE : Option E) (e : E)
    (he : oracle attempt = .error e) :
    (attemptLoop oracle attempt (fuel + 1) lastE).result =
      (attemptLoop oracle (attempt + 1) fuel (some e)).result := by
  simp only [attemptLoop, he]

/-- With an adapter that fails on every attempt, the retry loop returns
empty text together with the error of the final attempt. -/
lemma attemptLoop_result_of_allFail {E : Type} (oracle : Nat → Except E String)
    (errF : Nat → E) (h : ∀ n, oracle n = .error (errF n)) :
    ∀ (fuel : Nat), 1 ≤ fuel → ∀ (attempt : Nat) (lastE : Option E),
      (attemptLoop oracle attempt fuel lastE).result =
        ⟨"", some (.exc (errF (attempt + fuel - 1)))⟩ := by
  intro fuel
  induction fuel with
  | zero => intro hf; exact absurd hf (by omega)
  | succ n ih =>
    intro _ attempt lastE
    cases n with
    | zero => simp [attemptLoop, h attempt]
    | succ m =>
      rw [attemptLoop_succ_result oracle attempt (m + 1) lastE (errF attempt) (h attempt),
        ih (by omega) (attempt + 1) (some (errF attempt)),
        show attempt + 1 + (m + 1) - 1 = attempt + (m + 1 + 1) - 1 by omega]

/-! ## Claims about the retrying invoker -/

/-- Claim C3: for every task kind and source text, if every adapter call
fails, Translator.translate invokes the underlying client exactly
retry_limit (config.retries) times — never more, never fewer — and the
failure it returns is the error of the last attempt, earlier attempts
having been discarded. -/
theorem retry_bound_and_last_error {E : Type} (t : Translator) (task source : String)
    (htask : task = "zh_en" ∨ task = "en_zh") (hr : 1 ≤ t.config.retries)
    (errF : Nat → E) (oracle : Nat → Except E String)
    (horacle : ∀ n, oracle n = .error (errF n)) :
    (t.translate oracle task source).calls = t.config.retries.toNat ∧
    (t.translate oracle task source).result =
      ⟨"", some (.exc (errF t.config.retries.toNat))⟩ := by
  have hprompt : (SYSTEM_PROMPTS task).isNone = false := by
    rcases htask with h | h <;> simp [SYSTEM_PROMPTS, h]
  have hfuel : 1 ≤ t.config.retries.toNat := by omega
  unfold Translator.translate
  rw [hprompt]
  simp only [Bool.false_eq_true, if_false]
  refine ⟨attemptLoop_calls_of_allFail oracle errF horacle _ 1 none, ?_⟩
  rw [attemptLoop_result_of_allFail oracle errF horacle _ hfuel 1 none,
    show 1 + t.config.retries.toNat - 1 = t.config.retries.toNat by omega]

/-- Concrete instance of the retry bound: retries = 2, an adapter failing
at every attempt with its attempt number as the error. -/
theorem retry_bound_and_last_error_witness :
    ((Translator.mk ⟨"k", none, "m", "0", none, "30", 2, 4, true⟩).translate
        (fun n => Except.error n) "zh_en" "hello").calls = ((2 : Int)).toNat ∧
    ((Translator.mk ⟨"k", none, "m", "0", none, "30", 2, 4, true⟩).translate
        (fun n => Except.error n) "zh_en" "hello").result =
      ⟨"", some (.exc ((2 : Int)).toNat)⟩ :=
  retry_bound_and_last_error (Translator.mk ⟨"k", none, "m", "0", none, "30", 2, 4, true⟩)
    "zh_en" "hello" (Or.inl rfl) (by decide) (fun n => n) (fun n => Except.error n)
    (fun _ => rfl)

/-- Claim C10: for every task string not in the prompt table and every
source text, Translator.translate returns a failure outcome (empty text
with a ValueError) immediately: zero invocations of the client (hence no
client construction, which only happens inside an invocation) and zero
sleeps. -/
theorem unsupported_task_no_call {E : Type} (t : Translator)
    (oracle : Nat → Except E String) (task source : String)
    (h1 : task ≠ "zh_en") (h2 : task ≠ "en_zh") :
    t.translate oracle task source =
      ⟨⟨"", some (PyError.valueError ("Unsupported task: " ++ task))⟩, 0, []⟩ := by
  simp [Translator.translate, SYSTEM_PROMPTS, h1, h2]

/-- Concrete instance of the unsupported-task short circuit. -/
theorem unsupported_task_no_call_witness :
    (Translator.mk ⟨"k", none, "m", "0", none, "30", 3, 4, true⟩).translate
        (fun (_ : Nat) => Except.error ()) "fr_de" "bonjour" =
      ⟨⟨"", some (PyError.valueError ("Unsupported task: " ++ "fr_de"))⟩, 0, []⟩ :=
  unsupported_task_no_call (Translator.mk ⟨"k", none, "m", "0", none, "30", 3, 4, true⟩)
    (fun _ => Except.error ()) "fr_de" "bonjour" (by decide) (by decide)

/-- Claim C8: when config.retries is 0 or negative, Translator.translate
performs no remote call and returns an outcome with empty text and no
error; the dispatcher counts that outcome as a success; and load_config
accepts any integer RETRIES value — nothing rejects a retry count below
one. -/
theorem zero_retries_counts_as_success {E : Type} (t : Translator)
    (hr : t.config.retries ≤ 0) (oracle : Nat → Except E String)
    (task source : String) (htask : task = "zh_en" ∨ task = "en_zh")
    (item : ExamItem) (retriesStr : String)
    (hparse : pyInt retriesStr = some t.config.retries) :
    t.translate oracle task source = ⟨⟨"", none⟩, 0, []⟩ ∧
    translate_task [item] (fun _ => (t.translate oracle task source).result) true [0] =
      .ok ([(item, "")], 1, 0) ∧
    ∃ cfg, load_config (minimalEnv retriesStr) (some true) none = .ok cfg ∧
      cfg.retries = t.config.retries := by
  have hprompt : (SYSTEM_PROMPTS task).isNone = false := by
    rcases htask with h | h <;> simp [SYSTEM_PROMPTS, h]
  have h1 : t.translate oracle task source = ⟨⟨"", none⟩, 0, []⟩ := by
    unfold Translator.translate
    rw [hprompt]
    simp only [Bool.false_eq_true, if_false, Int.toNat_of_nonpos hr]
    rfl
  refine ⟨h1, ?_, ?_⟩
  · rw [h1]
    rfl
  · have h2 : load_config (minimalEnv retriesStr) (some true) none =
        (match pyInt retriesStr with
         | none => .error "ValueError: invalid literal for int: RETRIES"
         | some retries =>
           .ok ⟨"test-key", none, "test-model", "0", none, "30", retries, 4, true⟩) := rfl
    exact ⟨⟨"test-key", none, "test-model", "0", none, "30", t.config.retries, 4, true⟩,
      by rw [h2, hparse], rfl⟩

/-- Concrete instance of the zero/negative-retries behaviour at
retries = -3. -/
theorem zero_retries_counts_as_success_witness :
    (Translator.mk ⟨"k", none, "m", "0", none, "30", -3, 4, true⟩).translate
        (fun (_ : Nat) => Except.error ()) "zh_en" "hi" = ⟨⟨"", none⟩, 0, []⟩ ∧
    translate_task [ExamItem.mk "x" 1]
        (fun _ => ((Translator.mk ⟨"k", none, "m", "0", none, "30", -3, 4, true⟩).translate
          (fun (_ : Nat) => Except.error ()) "zh_en" "hi").result) true [0] =
      .ok ([(ExamItem.mk "x" 1, "")], 1, 0) ∧
    ∃ cfg, load_config (minimalEnv "-3") (some true) none = .ok cfg ∧
      cfg.retries =
        (Translator.mk ⟨"k", none, "m", "0", none, "30", -3, 4, true⟩).config.retries :=
  zero_retries_counts_as_success
    (Translator.mk ⟨"k", none, "m", "0", none, "30", -3, 4, true⟩) (by decide)
    (fun _ => Except.error ()) "zh_en" "hi" (Or.inl rfl) (ExamItem.mk "x" 1) "-3"
    (by decide)

/-! ## Dispatcher lemmas -/

section Dispatcher

variable {E : Type} (items : List ExamItem) (results : Nat → TranslationResult E)
  (cont : Bool)

lemma dispatchLoop_cons_some (idx : Nat) (pending : List Nat)
    (rows : List (ExamItem × String)) (s f : Nat) (e : PyError E)
    (he : (results idx).error = some e) :
    dispatchLoop items results cont (idx :: pending) rows s f =
      if cont then
        dispatchLoop items results cont pending
          (rows.set idx (items.getD idx default, "")) s (f + 1)
      else .error e := by
  simp only [dispatchLoop, he]

lemma dispatchLoop_cons_none (idx : Nat) (pending : List Nat)
    (rows : List (ExamItem × String)) (s f : Nat)
    (he : (results idx).error = none) :
    dispatchLoop items results cont (idx :: pending) rows s f =
      dispatchLoop items results cont pending
        (rows.set idx (items.getD idx default, (results idx).text)) (s + 1) f := by
  simp only [dispatchLoop, he]

/-- The dispatcher loop never changes the length of the slot array. -/
lemma dispatchLoop_length :
    ∀ (order : List Nat) (rows : List (ExamItem × String)) (s f : Nat)
      (rows' : List (ExamItem × String)) (s' f' : Nat),
      dispatchLoop items results cont order rows s f = .ok (rows', s', f') →
      rows'.length = rows.length := by
  intro order
  induction order with
  | nil =>
    intro rows s f rows' s' f' h
    simp only [dispatchLoop, Except.ok.injEq, Prod.mk.injEq] at h
    rw [← h.1]
  | cons idx pending ih =>
    intro rows s f rows' s' f' h
    cases herr : (results idx).error with
    | some e =>
      rw [dispatchLoop_cons_some items results cont idx pending rows s f e herr] at h
      cases cont with
      | false => simp at h
      | true =>
        simp only [if_true] at h
        simpa [List.length_set] using ih _ _ _ _ _ _ h
    | none =>
      rw [dispatchLoop_cons_none items results cont idx pending rows s f herr] at h
      simpa [List.length_set] using ih _ _ _ _ _ _ h

/-- Slots whose index never arrives are left untouched. -/
lemma dispatchLoop_untouched :
    ∀ (order : List Nat) (rows : List (ExamItem × String)) (s f : Nat)
      (rows' : List (ExamItem × String)) (s' f' : Nat) (i : Nat),
      dispatchLoop items results cont order rows s f = .ok (rows', s', f') →
      i ∉ order → rows'.getD i default = rows.getD i default := by
  intro order
  induction order with
  | nil =>
    intro rows s f rows' s' f' i h _
    simp only [dispatchLoop, Except.ok.injEq, Prod.mk.injEq] at h
    rw [← h.1]
  | cons idx pending ih =>
    intro rows s f rows' s' f' i h hmem
    have hne : idx ≠ i := fun hc => hmem (by rw [← hc]; exact List.mem_cons_self idx pending)
    have hrest : i ∉ pending := fun hc => hmem (List.mem_cons_of_mem idx hc)
    cases herr : (results idx).error with
    | some e =>
      rw [dispatchLoop_cons_some items results cont idx pending rows s f e herr] at h
      cases cont with
      | false => simp at h
      | true =>
        simp only [if_true] at h
        rw [ih _ _ _ _ _ _ _ h hrest, getD_set_ne _ _ _ _ _ hne]
    | none =>
      rw [dispatchLoop_cons_none items results cont idx pending rows s f herr] at h
      rw [ih _ _ _ _ _ _ _ h hrest, getD_set_ne _ _ _ _ _ hne]

/-- Any processed in-range index ends with its deterministic row value. -/
lemma dispatchLoop_slot :
    ∀ (order : List Nat) (rows : List (ExamItem × String)) (s f : Nat)
      (rows' : List (ExamItem × String)) (s' f' : Nat) (i : Nat),
      dispatchLoop items results cont order rows s f = .ok (rows', s', f') →
      i ∈ order → i < items.length → rows.length = items.length →
      rows'.getD i default = expectedRow items results i := by
  intro order
  induction order with
  | nil =>
    intro rows s f rows' s' f' i _ hmem
    exact absurd hmem (List.not_mem_nil i)
  | cons idx pending ih =>
    intro rows s f rows' s' f' i h hmem hi hlen
    by_cases hrest : i ∈ pending
    case pos =>
      cases herr : (results idx).error with
      | some e =>
        rw [dispatchLoop_cons_some items results cont idx pending rows s f e herr] at h
        cases cont with
        | false => simp at h
        | true =>
          simp only [if_true] at h
          exact ih _ _ _ _ _ _ _ h hrest hi (by simp [List.length_set, hlen])
      | none =>
        rw [dispatchLoop_cons_none items results cont idx pending rows s f herr] at h
        exact ih _ _ _ _ _ _ _ h hrest hi (by simp [List.length_set, hlen])
    case neg =>
      have hidx : i = idx := by
        rcases List.mem_cons.mp hmem with h' | h'
        · exact h'
        · exact absurd h' hrest
      subst hidx
      cases herr : (results i).error with
      | some e =>
        rw [dispatchLoop_cons_some items results cont i pending rows s f e herr] at h
        cases cont with
        | false => simp at h
        | true =>
          simp only [if_true] at h
          rw [dispatchLoop_untouched items results true pending _ _ _ _ _ _ _ h hrest,
            getD_set_self _ _ _ _ (by rw [hlen]; exact hi), expectedRow, herr]
          simp
      | none =>
        rw [dispatchLoop_cons_none items results cont i pending rows s f herr] at h
        rw [dispatchLoop_untouched items results cont pending _ _ _ _ _ _ _ h hrest,
          getD_set_self _ _ _ _ (by rw [hlen]; exact hi), expectedRow, herr]
        simp

/-- In continue mode each arriving outcome bumps exactly one of the two
counters: the final counts are the starting counts plus the number of
successful, respectively failed, indexes in the completion order. -/
lemma dispatchLoop_counts :
    ∀ (order : List Nat) (rows : List (ExamItem × String)) (s f : Nat)
      (rows' : List (ExamItem × String)) (s' f' : Nat),
      dispatchLoop items results true order rows s f = .ok (rows', s', f') →
      s' = s + order.countP (fun i => ((results i).error).isNone) ∧
      f' = f + order.countP (fun i => ((results i).error).isSome) := by
  intro order
  induction order with
  | nil =>
    intro rows s f rows' s' f' h
    simp only [dispatchLoop, Except.ok.injEq, Prod.mk.injEq] at h
    simp [← h.2.1, ← h.2.2]
  | cons idx pending ih =>
    intro rows s f rows' s' f' h
    cases herr : (results idx).error with
    | some e =>
      rw [dispatchLoop_cons_some items results true idx pending rows s f e herr] at h
      simp only [if_true] at h
      obtain ⟨hs, hf⟩ := ih _ _ _ _ _ _ h
      constructor
      · rw [hs, List.countP_cons]
        simp [herr]
      · rw [hf, List.countP_cons]
        simp [herr]
        omega
    | none =>
      rw [dispatchLoop_cons_none items results true idx pending rows s f herr] at h
      obtain ⟨hs, hf⟩ := ih _ _ _ _ _ _ h
      constructor
      · rw [hs, List.countP_cons]
        simp [herr]
        omega
      · rw [hf, List.countP_cons]
        simp [herr]

/-- In continue mode the loop always returns a row list. -/
lemma dispatchLoop_continue_ok :
    ∀ (order : List Nat) (rows : List (ExamItem × String)) (s f : Nat),
      ∃ rows' s' f',
        dispatchLoop items results true order rows s f = .ok (rows', s', f') := by
  intro order
  induction order with
  | nil => intro rows s f; exact ⟨rows, s, f, rfl⟩
  | cons idx pending ih =>
    intro rows s f
    cases herr : (results idx).error with
    | some e =>
      obtain ⟨r', s', f', h⟩ :=
        ih (rows.set idx (items.getD idx default, "")) s (f + 1)
      exact ⟨r', s', f', by
        rw [dispatchLoop_cons_some items results true idx pending rows s f e herr]
        simpa using h⟩
    | none =>
      obtain ⟨r', s', f', h⟩ :=
        ih (rows.set idx (items.getD idx default, (results idx).text)) (s + 1) f
      exact ⟨r', s', f', by
        rw [dispatchLoop_cons_none items results true idx pending rows s f herr]
        exact h⟩

/-- Under the abort policy the first failing arrival is re-raised. -/
lemma dispatchLoop_abort :
    ∀ (order : List Nat) (rows : List (ExamItem × String)) (s f : Nat),
      (∃ i ∈ order, ((results i).error).isSome = true) →
      ∃ i, order.find? (fun j => ((results j).error).isSome) = some i ∧
        ∃ e, (results i).error = some e ∧
          dispatchLoop items results false order rows s f = .error e := by
  intro order
  induction order with
  | nil =>
    intro rows s f h
    obtain ⟨i, hmem, _⟩ := h
    exact absurd hmem (List.not_mem_nil i)
  | cons idx pending ih =>
    intro rows s f h
    cases herr : (results idx).error with
    | some e =>
      refine ⟨idx, ?_, e, herr, ?_⟩
      · rw [List.find?_cons_of_pos]
        simp [herr]
      · rw [dispatchLoop_cons_some items results false idx pending rows s f e herr]
        simp
    | none =>
      have hpend : ∃ i ∈ pending, ((results i).error).isSome = true := by
        obtain ⟨i, hmem, hsome⟩ := h
        rcases List.mem_cons.mp hmem with h' | h'
        · rw [h', herr] at hsome
          simp at hsome
        · exact ⟨i, h', hsome⟩
      obtain ⟨i, hfind, e, he, hloop⟩ :=
        ih (rows.set idx (items.getD idx default, (results idx).text)) (s + 1) f hpend
      refine ⟨i, ?_, e, he, ?_⟩
      · rw [List.find?_cons_of_neg]
        · exact hfind
        · simp [herr]
      · rw [dispatchLoop_cons_none items results false idx pending rows s f herr]
        exact hloop

end Dispatcher

/-- A success predicate and a failure predicate split every completion
order exactly in two. -/
lemma countP_isNone_add_isSome {E : Type} (results : Nat → TranslationResult E) :
    ∀ (order : List Nat),
      order.countP (fun i => ((results i).error).isNone) +
        order.countP (fun i => ((results i).error).isSome) = order.length := by
  intro order
  induction order with
  | nil => rfl
  | cons idx pending ih =>
    rw [List.countP_cons, List.countP_cons, List.length_cons]
    cases herr : (results idx).error <;> simp [herr] <;> omega

/-! ## Claims about the bounded dispatcher -/

/-- Claim C1: for every list of work items and every completion order of
the worker results, the rows returned by translate_task are in input
order — the i-th returned row is the pair for the i-th input item — and
the row list has the same length as the item list. -/
theorem order_preservation {E : Type} (items : List ExamItem)
    (results : Nat → TranslationResult E) (cont : Bool) (order : List Nat)
    (hperm : order.Perm (List.range items.length))
    (rows : List (ExamItem × String)) (s f : Nat)
    (h : translate_task items results cont order = .ok (rows, s, f)) :
    rows.length = items.length ∧
    ∀ i, i < items.length → (rows.getD i default).1 = items.getD i default := by
  cases hempty : items.isEmpty with
  | true =>
    have hnil : items = [] := List.isEmpty_iff.mp hempty
    subst hnil
    simp only [translate_task, List.isEmpty_nil, if_true, Except.ok.injEq,
      Prod.mk.injEq] at h
    rw [← h.1]
    exact ⟨rfl, fun i hi => absurd hi (by simp)⟩
  | false =>
    simp only [translate_task, hempty, Bool.false_eq_true, if_false] at h
    constructor
    · rw [dispatchLoop_length items results cont order _ _ _ _ _ _ h, List.length_map]
    · intro i hi
      have hmem : i ∈ order := hperm.mem_iff.mpr (List.mem_range.mpr hi)
      rw [dispatchLoop_slot items results cont order _ _ _ _ _ _ i h hmem hi
        (by rw [List.length_map])]
      rfl

/-- Concrete instance of order preservation: two items, both succeeding,
completing in reverse order. -/
theorem order_preservation_witness :
    ([(ExamItem.mk "a" 1, "ok"), (ExamItem.mk "b" 2, "ok")] : List (ExamItem × String)).length =
      ([ExamItem.mk "a" 1, ExamItem.mk "b" 2] : List ExamItem).length ∧
    ∀ i, i < ([ExamItem.mk "a" 1, ExamItem.mk "b" 2] : List ExamItem).length →
      (([(ExamItem.mk "a" 1, "ok"), (ExamItem.mk "b" 2, "ok")] :
          List (ExamItem × String)).getD i default).1 =
        ([ExamItem.mk "a" 1, ExamItem.mk "b" 2] : List ExamItem).getD i default :=
  order_preservation [ExamItem.mk "a" 1, ExamItem.mk "b" 2]
    (fun _ => (⟨"ok", none⟩ : TranslationResult Unit)) true [1, 0] (by decide)
    [(ExamItem.mk "a" 1, "ok"), (ExamItem.mk "b" 2, "ok")] 2 0 (by decide)

/-- Claim C2: whenever translate_task returns normally — continue mode or
an empty item list — success_count plus failure_count equals the number of
input items (each completed item bumps exactly one of the two counters;
see dispatchLoop_counts). -/
theorem count_invariant {E : Type} (items : List ExamItem)
    (results : Nat → TranslationResult E) (cont : Bool) (order : List Nat)
    (hperm : order.Perm (List.range items.length))
    (hmode : cont = true ∨ items = [])
    (rows : List (ExamItem × String)) (s f : Nat)
    (h : translate_task items results cont order = .ok (rows, s, f)) :
    s + f = items.length := by
  rcases hmode with hc | hnil
  · subst hc
    cases hempty : items.isEmpty with
    | true =>
      have hnil : items = [] := List.isEmpty_iff.mp hempty
      subst hnil
      obtain ⟨h1, h2⟩ : rows = [] ∧ (0 : Nat × Nat) = (s, f) := by
        simpa [translate_task] using h
      obtain ⟨h3, h4⟩ := Prod.mk.injEq 0 0 s f ▸ h2
      simp [← h3, ← h4]
    | false =>
      simp only [translate_task, hempty, Bool.false_eq_true, if_false] at h
      obtain ⟨hs, hf⟩ := dispatchLoop_counts items results order _ 0 0 _ _ _ h
      rw [hs, hf]
      have hlen : order.length = items.length := by
        rw [hperm.length_eq, List.length_range]
      have := countP_isNone_add_isSome results order
      omega
  · subst hnil
    obtain ⟨h1, h2⟩ : rows = [] ∧ (0 : Nat × Nat) = (s, f) := by
      simpa [translate_task] using h
    obtain ⟨h3, h4⟩ := Prod.mk.injEq 0 0 s f ▸ h2
    simp [← h3, ← h4]

/-- Concrete instance of the count invariant: two items, one failing, in
continue mode. -/
theorem count_invariant_witness :
    (1 : Nat) + 1 = ([ExamItem.mk "a" 1, ExamItem.mk "b" 2] : List ExamItem).length :=
  count_invariant [ExamItem.mk "a" 1, ExamItem.mk "b" 2]
    (fun i => if i = 0 then (⟨"", some (.exc "x")⟩ : TranslationResult String)
              else ⟨"tb", none⟩)
    true [0, 1] (by decide) (Or.inl rfl)
    [(ExamItem.mk "a" 1, ""), (ExamItem.mk "b" 2, "tb")] 1 1 (by decide)

/-- Claim C4: with continue_on_error false, when some arriving outcome
carries an error (its retries were exhausted), translate_task re-raises
the triggering error — the first failure in completion order — as the
terminal failure and returns no row list or counts. -/
theorem abort_policy_raises {E : Type} (items : List ExamItem)
    (results : Nat → TranslationResult E) (order : List Nat)
    (hperm : order.Perm (List.range items.length))
    (hfail : ∃ i ∈ order, ((results i).error).isSome = true) :
    ∃ i, order.find? (fun j => ((results j).error).isSome) = some i ∧
      ∃ e, (results i).error = some e ∧
        translate_task items results false order = .error e := by
  have hne : items.isEmpty = false := by
    cases hempty : items.isEmpty with
    | false => rfl
    | true =>
      have hnil : items = [] := List.isEmpty_iff.mp hempty
      subst hnil
      have : order = [] := by simpa [List.range] using hperm.eq_nil
      subst this
      obtain ⟨i, hmem, _⟩ := hfail
      exact absurd hmem (List.not_mem_nil i)
  obtain ⟨i, hfind, e, he, hloop⟩ :=
    dispatchLoop_abort items results order (items.map (fun item => (item, ""))) 0 0 hfail
  refine ⟨i, hfind, e, he, ?_⟩
  simp only [translate_task, hne, Bool.false_eq_true, if_false]
  exact hloop

/-- Concrete instance of the abort policy: a single item whose outcome
carries error 7. -/
theorem abort_policy_raises_witness :
    ∃ i, List.find?
        (fun j => (((fun (_ : Nat) => (⟨"", some (.exc 7)⟩ : TranslationResult Nat)) j).error).isSome)
        [0] = some i ∧
      ∃ e, ((fun (_ : Nat) => (⟨"", some (.exc 7)⟩ : TranslationResult Nat)) i).error = some e ∧
        translate_task [ExamItem.mk "a" 1]
          (fun _ => (⟨"", some (.exc 7)⟩ : TranslationResult Nat)) false [0] = .error e :=
  abort_policy_raises [ExamItem.mk "a" 1]
    (fun _ => (⟨"", some (.exc 7)⟩ : TranslationResult Nat)) [0] (by decide) (by decide)

/-- Claim C6: in continue mode the batch always completes with the success
counter counting the non-failing items and the failure counter the failing
ones, and every terminal failure stores empty text in its input-order
slot.  The spec scenario (3 items, the second failing every attempt under
retry_limit 2) is the witness below. -/
theorem continue_mode_failure_handling {E : Type} (items : List ExamItem)
    (results : Nat → TranslationResult E) (order : List Nat)
    (hperm : order.Perm (List.range items.length))
    (rows : List (ExamItem × String)) (s f : Nat)
    (h : translate_task items results true order = .ok (rows, s, f)) :
    s = (List.range items.length).countP (fun i => ((results i).error).isNone) ∧
    f = (List.range items.length).countP (fun i => ((results i).error).isSome) ∧
    ∀ i, i < items.length → ((results i).error).isSome = true →
      rows.getD i default = (items.getD i default, "") := by
  cases hempty : items.isEmpty with
  | true =>
    have hnil : items = [] := List.isEmpty_iff.mp hempty
    subst hnil
    simp only [translate_task, List.isEmpty_nil, if_true, Except.ok.injEq,
      Prod.mk.injEq] at h
    refine ⟨by simp [← h.2.1], by simp [← h.2.2], fun i hi => absurd hi (by simp)⟩
  | false =>
    simp only [translate_task, hempty, Bool.false_eq_true, if_false] at h
    obtain ⟨hs, hf⟩ := dispatchLoop_counts items results order _ 0 0 _ _ _ h
    refine ⟨by rw [hs, hperm.countP_eq]; omega, by rw [hf, hperm.countP_eq]; omega, ?_⟩
    intro i hi hsome
    have hmem : i ∈ order := hperm.mem_iff.mpr (List.mem_range.mpr hi)
    rw [dispatchLoop_slot items results true order _ _ _ _ _ _ i h hmem hi
      (by rw [List.length_map])]
    simp [expectedRow, hsome]

/-- The spec scenario as a concrete instance: 3 items, item 2 failing on
every attempt under retry_limit 2, continue mode, completion order
[2, 0, 1] — three outcomes, the failing slot holds empty text,
success_count 2, failure_count 1. -/
theorem continue_mode_failure_handling_witness :
    (2 : Nat) = (List.range scenarioItems.length).countP
        (fun i => ((scenarioResults i).error).isNone) ∧
    (1 : Nat) = (List.range scenarioItems.length).countP
        (fun i => ((scenarioResults i).error).isSome) ∧
    ∀ i, i < scenarioItems.length → ((scenarioResults i).error).isSome = true →
      ([(ExamItem.mk "s1" 1, "good"), (ExamItem.mk "s2" 2, ""),
          (ExamItem.mk "s3" 3, "good")] : List (ExamItem × String)).getD i default =
        (scenarioItems.getD i default, "") :=
  continue_mode_failure_handling scenarioItems scenarioResults [2, 0, 1] (by decide)
    [(ExamItem.mk "s1" 1, "good"), (ExamItem.mk "s2" 2, ""),
      (ExamItem.mk "s3" 3, "good")] 2 1 (by decide)

/-! ## Parser lemmas -/

@[simp] lemma addItem_seen_exam_start (st : PState) (t : String) (it : ExamItem) :
    (st.addItem t it).seen_exam_start = st.seen_exam_start := by
  unfold PState.addItem
  split <;> rfl

@[simp] lemma addItem_seen_exam_end (st : PState) (t : String) (it : ExamItem) :
    (st.addItem t it).seen_exam_end = st.seen_exam_end := by
  unfold PState.addItem
  split <;> rfl

@[simp] lemma addItem_inside_exam (st : PState) (t : String) (it : ExamItem) :
    (st.addItem t it).inside_exam = st.inside_exam := by
  unfold PState.addItem
  split <;> rfl

lemma map_pyStrip_enumFrom (n : Nat) (lines : List String) :
    (List.enumFrom n lines).map (fun p => pyStrip p.2) = lines.map pyStrip := by
  induction lines generalizing n with
  | nil => rfl
  | cons a l ih => simp [List.enumFrom, ih]

/-- The seen-start flag is never cleared. -/
lemma parseLines_start_mono :
    ∀ (xs : List (Nat × String)) (st : PState),
      st.seen_exam_start = true → (parseLines xs st).seen_exam_start = true := by
  intro xs
  induction xs with
  | nil => intro st h; exact h
  | cons p rest ih =>
    intro st h
    obtain ⟨n, raw⟩ := p
    simp only [parseLines]
    split
    · exact ih _ rfl
    split
    · exact h
    split
    · exact ih _ h
    split
    · exact ih _ h
    split
    · exact ih _ h
    split
    · exact ih _ h
    split
    · exact ih _ h
    · rw [ih _ (by simpa using h)]

/-- When no line strips to the open-exam marker before the first close-exam
marker, the loop never sets the seen-start flag nor enters the exam. -/
lemma parseLines_no_start :
    ∀ (xs : List (Nat × String)) (st : PState),
      st.seen_exam_start = false → st.inside_exam = false →
      "<exam>" ∉ (xs.map (fun p => pyStrip p.2)).takeWhile (fun s => s ≠ "</exam>") →
      (parseLines xs st).seen_exam_start = false ∧
        (parseLines xs st).inside_exam = false := by
  intro xs
  induction xs with
  | nil => intro st h1 h2 _; exact ⟨h1, h2⟩
  | cons p rest ih =>
    intro st h1 h2 hmem
    obtain ⟨n, raw⟩ := p
    by_cases hex : pyStrip raw = "<exam>"
    · exfalso
      apply hmem
      simp only [List.map_cons]
      rw [List.takeWhile_cons_of_pos (by simp [hex])]
      rw [hex]
      exact List.mem_cons_self _ _
    · by_cases hclose : pyStrip raw = "</exam>"
      · simp only [parseLines]
        rw [if_neg hex, if_pos hclose]
        exact ⟨h1, rfl⟩
      · simp only [parseLines]
        rw [if_neg hex, if_neg hclose, if_pos (by rw [h2]; rfl)]
        apply ih st h1 h2
        intro hc
        apply hmem
        simp only [List.map_cons]
        rw [List.takeWhile_cons_of_pos (by simp [hclose])]
        exact List.mem_cons_of_mem _ hc

/-- When no line strips to the close-exam marker, the seen-end flag keeps
its starting value. -/
lemma parseLines_end_unchanged :
    ∀ (xs : List (Nat × String)) (st : PState),
      "</exam>" ∉ xs.map (fun p => pyStrip p.2) →
      (parseLines xs st).seen_exam_end = st.seen_exam_end := by
  intro xs
  induction xs with
  | nil => intro st _; rfl
  | cons p rest ih =>
    intro st hmem
    obtain ⟨n, raw⟩ := p
    have hclose : pyStrip raw ≠ "</exam>" := by
      intro hc
      exact hmem (by simp only [List.map_cons]; rw [hc]; exact List.mem_cons_self _ _)
    have htail : "</exam>" ∉ rest.map (fun p => pyStrip p.2) :=
      fun hc => hmem (by simp only [List.map_cons]; exact List.mem_cons_of_mem _ hc)
    simp only [parseLines]
    rw [if_neg hclose]
    split
    · exact ih _ htail
    split
    · exact ih _ htail
    split
    · exact ih _ htail
    split
    · exact ih _ htail
    split
    · exact ih _ htail
    split
    · exact ih _ htail
    · rw [ih _ htail]
      simp

/-- When some line strips to the open-exam marker and none to the
close-exam marker, the loop sets the seen-start flag. -/
lemma parseLines_sets_start :
    ∀ (xs : List (Nat × String)) (st : PState),
      "<exam>" ∈ xs.map (fun p => pyStrip p.2) →
      "</exam>" ∉ xs.map (fun p => pyStrip p.2) →
      (parseLines xs st).seen_exam_start = true := by
  intro xs
  induction xs with
  | nil => intro st h _; exact absurd h (List.not_mem_nil _)
  | cons p rest ih =>
    intro st hmem hnoclose
    obtain ⟨n, raw⟩ := p
    have hclose : pyStrip raw ≠ "</exam>" := by
      intro hc
      exact hnoclose (by simp only [List.map_cons]; rw [hc]; exact List.mem_cons_self _ _)
    have htail : "</exam>" ∉ rest.map (fun p => pyStrip p.2) :=
      fun hc => hnoclose (by simp only [List.map_cons]; exact List.mem_cons_of_mem _ hc)
    by_cases hex : pyStrip raw = "<exam>"
    · simp only [parseLines]
      rw [if_pos hex]
      exact parseLines_start_mono rest _ rfl
    · have hmemtail : "<exam>" ∈ rest.map (fun p => pyStrip p.2) := by
        rcases List.mem_cons.mp (by simpa only [List.map_cons] using hmem) with h' | h'
        · exact absurd h'.symm hex
        · exact h'
      simp only [parseLines]
      rw [if_neg hex, if_neg hclose]
      split
      · exact ih _ hmemtail htail
      split
      · exact ih _ hmemtail htail
      split
      · exact ih _ hmemtail htail
      split
      · exact ih _ hmemtail htail
      split
      · exact ih _ hmemtail htail
      · exact ih _ hmemtail htail

/-! ## Claim about the parser -/

/-- Claim C5: parse_exam fails with MalformedInput both for every file in
which no open-exam marker is ever seen (no line strips to the open marker
before reading stops at the first close marker) and for every file in
which the open marker was seen but the file ends before any close marker;
in both cases no parse result is returned. -/
theorem malformed_input_rejection (lines : List String) :
    ("<exam>" ∉ ((lines.map pyStrip).takeWhile (fun s => s ≠ "</exam>")) →
      parse_exam lines = .error "Malformed exam.txt: missing <exam> container") ∧
    ("<exam>" ∈ lines.map pyStrip → "</exam>" ∉ lines.map pyStrip →
      parse_exam lines = .error "Malformed exam.txt: missing </exam>") := by
  constructor
  · intro hno
    obtain ⟨h1, h2⟩ := parseLines_no_start (List.enumFrom 1 lines) initPState rfl rfl
      (by rw [map_pyStrip_enumFrom]; exact hno)
    simp only [parse_exam]
    rw [h1, h2]
    simp
  · intro hopen hnoclose
    have h1 := parseLines_sets_start (List.enumFrom 1 lines) initPState
      (by rw [map_pyStrip_enumFrom]; exact hopen)
      (by rw [map_pyStrip_enumFrom]; exact hnoclose)
    have h2 := parseLines_end_unchanged (List.enumFrom 1 lines) initPState
      (by rw [map_pyStrip_enumFrom]; exact hnoclose)
    simp only [parse_exam]
    rw [h1, h2]
    simp [initPState]

/-- Concrete instances of malformed-input rejection: a file with no
open-exam marker, and a file whose exam block is never closed. -/
theorem malformed_input_rejection_witness :
    parse_exam ["hello"] = .error "Malformed exam.txt: missing <exam> container" ∧
    parse_exam ["<exam>", "<zh_en>", "hi"] = .error "Malformed exam.txt: missing </exam>" :=
  ⟨(malformed_input_rejection ["hello"]).1 (by decide),
   (malformed_input_rejection ["<exam>", "<zh_en>", "hi"]).2 (by decide) (by decide)⟩

/-! ## Claim about the process exit contract -/

/-- Claim C7 (code bug): main maps any exception raised by run to exit
status 1 after logging, but run can never reach a normal return — its very
first configuration step calls load_config with keyword arguments
(zh_en_limit, en_zh_limit, random_seed) that load_config does not declare,
so every invocation raises TypeError and exits 1; in particular an
invocation with valid configuration, well-formed input and all items
succeeding exits 1, not 0 as claimed.  `rest` stands for whatever the
remainder of run would have produced. -/
theorem process_exit_always_one (rest : Except String Nat) :
    kwargsAccepted load_config_params run_load_config_kwargs = false ∧
    main_exit (run_outcome rest) = 1 :=
  ⟨rfl, rfl⟩

/-! ## Sampling lemmas -/

lemma insertLe_of_forall_le (a : Nat) (l : List Nat) (h : ∀ b ∈ l, a ≤ b) :
    insertLe a l = a :: l := by
  cases l with
  | nil => rfl
  | cons b l => simp [insertLe, h b (List.mem_cons_self b l)]

/-- Sorting an already `≤`-sorted list is the identity. -/
lemma pySorted_of_sorted :
    ∀ (l : List Nat), l.Pairwise (· ≤ ·) → pySorted l = l := by
  intro l
  induction l with
  | nil => intro _; rfl
  | cons a l ih =>
    intro h
    have hstep : pySorted (a :: l) = insertLe a (pySorted l) := rfl
    rw [hstep, ih (List.pairwise_cons.mp h).2,
      insertLe_of_forall_le a l (List.pairwise_cons.mp h).1]

/-- Mapping index lookup over a consecutive index run yields the
corresponding contiguous slice. -/
lemma map_getD_range' :
    ∀ (k off : Nat) (items : List ExamItem), off + k ≤ items.length →
      (List.range' off k).map (fun i => items.getD i default) =
        (items.drop off).take k := by
  intro k
  induction k with
  | zero => intro off items _; simp
  | succ n ih =>
    intro off items h
    have hoff : off < items.length := by omega
    rw [List.range'_succ, List.map_cons, ih (off + 1) items (by omega),
      List.getD_eq_getElem _ _ hoff]
    conv_rhs => rw [← List.getElem_cons_drop items off hoff]
    rfl

/-! ## Claim about sampling -/

/-- Claim C9 counterexample: at limit -2 — negative yet different from the
unlimited sentinel -1 — sample_items raises ValueError (from
random.sample) instead of returning a subsequence of the input. -/
theorem sample_items_negative_limit_counterexample :
    sample_items "zh_en" [ExamItem.mk "hello" 1] (-2) 0 =
      .error "ValueError: Sample larger than population or is negative" := by
  decide

/-- Claim C9 (amended): for every valid task, item list, seed, and limit
that is -1 or non-negative, sample_items returns a subsequence of the
input preserving the original relative order; it returns the input
unchanged when limit is -1 or at least the list length and the empty list
when limit is 0; it is deterministic, being (like the seeded sampler it
calls) a pure function of task, items, limit and seed.  The amendment
excludes limits below -1, where the code raises ValueError instead (see
the counterexample). -/
theorem sample_items_subsequence (task : String) (items : List ExamItem)
    (limit : Int) (seed : Int)
    (htask : task = "zh_en" ∨ task = "en_zh")
    (hlim : limit = -1 ∨ 0 ≤ limit) :
    ∃ l, sample_items task items limit seed = .ok l ∧ l.Sublist items ∧
      ((limit = -1 ∨ (items.length : Int) ≤ limit) → l = items) ∧
      (limit = 0 → l = []) := by
  by_cases hfull : limit = -1 ∨ (items.length : Int) ≤ limit
  · refine ⟨items, ?_, List.Sublist.refl items, fun _ => rfl, ?_⟩
    · unfold sample_items
      rw [if_pos hfull]
    · intro h0
      rcases hfull with h | h
      · rw [h0] at h
        exact absurd h (by decide)
      · rw [h0] at h
        have : items.length = 0 := by omega
        exact List.eq_nil_of_length_eq_zero this
  · have h0le : 0 ≤ limit := by
      rcases hlim with h | h
      · exact absurd (Or.inl h) hfull
      · exact h
    have hlt : limit < (items.length : Int) := by
      rcases not_or.mp hfull with ⟨_, h2⟩
      omega
    obtain ⟨o, ho⟩ : ∃ o, TASK_SEED_OFFSETS task = some o := by
      rcases htask with h | h
      · exact ⟨11, by simp [TASK_SEED_OFFSETS, h]⟩
      · exact ⟨29, by simp [TASK_SEED_OFFSETS, h]⟩
    by_cases h0 : limit = 0
    · refine ⟨[], ?_, List.nil_sublist items, fun hc => absurd hc hfull, fun _ => rfl⟩
      unfold sample_items
      rw [if_neg hfull, if_pos h0]
    · unfold sample_items
      rw [if_neg hfull, if_neg h0]
      simp only [ho]
      unfold random_sample
      rw [if_neg (show ¬(limit < 0 ∨ (items.length : Int) < limit) by omega)]
      have hk : limit.toNat ≤ items.length := by omega
      have hofflt :
          ((1103515245 * (seed + o) + 12345) % 2147483648).toNat %
              (items.length - limit.toNat + 1) <
            items.length - limit.toNat + 1 :=
        Nat.mod_lt _ (by omega)
      have hbound :
          ((1103515245 * (seed + o) + 12345) % 2147483648).toNat %
              (items.length - limit.toNat + 1) + limit.toNat ≤ items.length := by
        omega
      have hsorted :
          (List.range'
              (((1103515245 * (seed + o) + 12345) % 2147483648).toNat %
                (items.length - limit.toNat + 1))
              limit.toNat).Pairwise (· ≤ ·) :=
        (List.pairwise_lt_range' _ _ 1 Nat.one_pos).imp Nat.le_of_lt
      refine ⟨_, rfl, ?_, fun hc => absurd hc hfull, fun hc => absurd hc h0⟩
      rw [pySorted_of_sorted _ hsorted, map_getD_range' _ _ _ hbound]
      exact (List.take_sublist _ _).trans (List.drop_sublist _ _)

/-- Concrete instance of the amended sampling property: three items,
limit 2, seed 5. -/
theorem sample_items_subsequence_witness :
    ∃ l, sample_items "zh_en" [ExamItem.mk "a" 1, ExamItem.mk "b" 2, ExamItem.mk "c" 3]
        2 5 = .ok l ∧
      l.Sublist [ExamItem.mk "a" 1, ExamItem.mk "b" 2, ExamItem.mk "c" 3] ∧
      (((2 : Int) = -1 ∨
          (([ExamItem.mk "a" 1, ExamItem.mk "b" 2, ExamItem.mk "c" 3] :
            List ExamItem).length : Int) ≤ 2) →
        l = [ExamItem.mk "a" 1, ExamItem.mk "b" 2, ExamItem.mk "c" 3]) ∧
      ((2 : Int) = 0 → l = []) :=
  sample_items_subsequence "zh_en"
    [ExamItem.mk "a" 1, ExamItem.mk "b" 2, ExamItem.mk "c" 3] 2 5
    (Or.inl rfl) (Or.inr (by decide))

end TransBench
